import Mathlib

/-!
Shallow embedding of the netconf topology inference and validation engine
(`src/engine/infer.py` and `src/engine/validate.py`).

Python dictionaries are modelled as association lists kept in insertion
order (Python 3.7+ dicts iterate in insertion order); dictionary lookup
returns the first (and, for inputs produced from real Python dicts, only)
matching entry.  Python sets are modelled as duplicate-free lists whose
order is never observed.  Absent optional input fields are modelled by
their Python `.get(...)` default values.
-/

namespace Netconf

/-- `engine/infer.py` `Port`: a network port (interface) on a host.
`__eq__`/`__hash__` compare only `(host, interface)`; `mac` is descriptive. -/
structure Port where
  host : String
  interface : String
  mac : String
deriving DecidableEq, Repr

/-- The identity key of a Port, as used by `Port.__eq__` / `Port.__hash__`. -/
def portKey (p : Port) : String × String := (p.host, p.interface)

/-- Python `Port.__eq__`: equality on `(host, interface)` only. -/
def portKeyEq (p q : Port) : Bool := decide (p.host = q.host ∧ p.interface = q.interface)

/-- `engine/infer.py` `Link`: a link between two ports. -/
structure Link where
  port_a : Port
  port_b : Port
  bidirectional : Bool
  discovery_methods : List String
deriving DecidableEq, Repr

/-- `Link.involves_port`: whether the link touches the given (host, interface). -/
def Link.involves_port (l : Link) (host interface : String) : Bool :=
  decide ((l.port_a.host = host ∧ l.port_a.interface = interface)
    ∨ (l.port_b.host = host ∧ l.port_b.interface = interface))

/-- The ordered pair of ports of a link (its key in `links_map`). -/
def portsOf (l : Link) : Port × Port := (l.port_a, l.port_b)

/-- Interface inventory record, dict shape per the input contract:
`{ mac: string, state: "up"|"down"|"unknown", ... }`.  A missing `mac`
key is the default `""`; a missing `state` key is the default `"unknown"`. -/
structure InterfaceData where
  mac : String
  state : String
deriving DecidableEq, Repr

/-- Error/drop counters, `link_states[iface]["stats"]`; missing counters
default to `0` (`_get_value(stats, key, 0)`). -/
structure Stats where
  rx_errors : Int
  tx_errors : Int
  rx_dropped : Int
  tx_dropped : Int
deriving DecidableEq, Repr

/-- Link-state record.  `stats := none` models a missing or empty stats
dict (both are skipped by `_check_error_counters`, since an empty Python
dict is falsy). -/
structure LinkState where
  speed : String
  duplex : String
  link_detected : Bool
  carrier : Bool
  stats : Option Stats
deriving DecidableEq, Repr

/-- The default link-state used by `link_states.get(iface_name, {})`:
an empty dict, whose `_get_value` reads return the defaults. -/
def emptyLinkState : LinkState :=
  { speed := "", duplex := "", link_detected := false, carrier := false, stats := none }

/-- One neighbor observation record.  Only the fields `infer` reads are
modelled: `remote_mac` (`.get("remote_mac", "")`) and `discovery_method`
(`.get("discovery_method", "unknown")`), with absence mapped to the default. -/
structure Neighbor where
  remote_mac : String
  discovery_method : String
deriving DecidableEq, Repr

/-- One host's collected data (the value of `host_data[host_id]`).
Missing `hostname` is `none` (`data.get("hostname", host_id)` falls back to
the host id); missing `interfaces`/`link_states`/`neighbors` are `[]`
(the `.get(key, {})` empty-dict default). -/
structure HostData where
  hostname : Option String
  interfaces : List (String × InterfaceData)
  link_states : List (String × LinkState)
  neighbors : List (String × List Neighbor)
deriving DecidableEq, Repr

/-- The full `host_data` input map, in dict iteration (insertion) order. -/
def RawData := List (String × HostData)

/-- `engine/infer.py` `HostInfo`. -/
structure HostInfo where
  host_id : String
  hostname : String
  interfaces : List (String × InterfaceData)
  link_states : List (String × LinkState)
  neighbors : List (String × List Neighbor)
deriving DecidableEq, Repr

/-- `engine/infer.py` `Topology`. -/
structure Topology where
  hosts : List (String × HostInfo)
  links : List Link
deriving DecidableEq, Repr

/-- Python dict lookup (`d.get(k)` / `d[k]`) on an association list. -/
def lookupAssoc {β : Type} : List (String × β) → String → Option β
  | [], _ => none
  | (k, v) :: rest, key => if k = key then some v else lookupAssoc rest key

/-- Helper for `Topology.get_link_for_interface`: first link involving the port. -/
def findLinkForPort (host interface : String) : List Link → Option Link
  | [] => none
  | l :: rest =>
    if l.involves_port host interface then some l else findLinkForPort host interface rest

/-- `Topology.get_link_for_interface`: scans `self.links` in order and
returns the first link involving the port, else `None`. -/
def Topology.get_link_for_interface (t : Topology) (host interface : String) : Option Link :=
  findLinkForPort host interface t.links

/-- `Topology.get_links_for_host`. -/
def Topology.get_links_for_host (t : Topology) (host_id : String) : List Link :=
  t.links.filter fun l => decide (l.port_a.host = host_id ∨ l.port_b.host = host_id)

/-! ## TopologyInferrer -/

/-- Python `str.lower()` (kernel-computable embedding; MAC address
strings are ASCII, where `Char.toLower` agrees with Python). -/
def lowerStr (s : String) : String := ⟨s.data.map Char.toLower⟩

/-- Python string `<`: lexicographic comparison by code point. -/
def charListLt : List Char → List Char → Bool
  | [], [] => false
  | [], _ :: _ => true
  | _ :: _, [] => false
  | a :: as, b :: bs => a.toNat < b.toNat || (a.toNat = b.toNat && charListLt as bs)

/-- Python string `<` on `String`. -/
def strLtB (a b : String) : Bool := charListLt a.data b.data

/-- Python string `<=` on `String`. -/
def strLeB (a b : String) : Bool := strLtB a b || a == b

/-- Python tuple comparison `key_a <= key_b` on `(host, interface)` string
pairs: lexicographic by code point. -/
def pairLe (a b : String × String) : Bool :=
  strLtB a.1 b.1 || (a.1 == b.1 && strLeB a.2 b.2)

/-- `TopologyInferrer._normalize_link_key`: order the two ports by
`(host, interface)` so the same unordered pair always yields one key. -/
def normalizeLinkKey (port_a port_b : Port) : Port × Port :=
  if pairLe (portKey port_a) (portKey port_b) then (port_a, port_b) else (port_b, port_a)

/-- `TopologyInferrer._get_interface_mac_from_data` on a dict-shaped
record: `iface_data.get("mac", "").lower()`, and `""` when the record is
absent (`None`). -/
def getInterfaceMacFromData : Option InterfaceData → String
  | none => ""
  | some d => lowerStr d.mac

/-- `TopologyInferrer._get_interface_mac`. -/
def getInterfaceMac (interfaces : List (String × InterfaceData)) (iface : String) : String :=
  getInterfaceMacFromData (lookupAssoc interfaces iface)

/-- `self._mac_to_port[mac] = port`: dict insert-or-overwrite. -/
def insertMac (k : String) (v : Port) : List (String × Port) → List (String × Port)
  | [] => [(k, v)]
  | (k', v') :: rest => if k' = k then (k, v) :: rest else (k', v') :: insertMac k v rest

/-- Body of the `_process_host` interface loop: insert this interface's
(lowercased, non-empty) MAC into the MAC-to-port map. -/
def macStep (host_id : String) (m : List (String × Port)) (e : String × InterfaceData) :
    List (String × Port) :=
  let mac := getInterfaceMacFromData (some e.2)
  if mac = "" then m
  else insertMac mac { host := host_id, interface := e.1, mac := mac } m

/-- `TopologyInferrer._process_host`: build the HostInfo record and fold
this host's interface inventory into the MAC-to-port map (empty MACs are
skipped; the collision branch only logs a warning and overwrites). -/
def processHost (macToPort : List (String × Port)) (host_id : String) (data : HostData) :
    HostInfo × List (String × Port) :=
  let host_info : HostInfo :=
    { host_id := host_id
      hostname := data.hostname.getD host_id
      interfaces := data.interfaces
      link_states := data.link_states
      neighbors := data.neighbors }
  (host_info, data.interfaces.foldl (macStep host_id) macToPort)

/-- Body of the phase-1 loop: register the host and extend the MAC map. -/
def phase1Step (acc : List (String × HostInfo) × List (String × Port))
    (e : String × HostData) : List (String × HostInfo) × List (String × Port) :=
  let hi := (processHost acc.2 e.1 e.2).1
  (acc.1 ++ [(e.1, hi)], (processHost acc.2 e.1 e.2).2)

/-- Phase 1 of `infer`: per-host registry plus the global MAC-to-port map. -/
def phase1 (host_data : RawData) : List (String × HostInfo) × List (String × Port) :=
  host_data.foldl phase1Step ([], [])

/-- A directional observation tuple
`(local_host, local_iface, remote_host, remote_iface)`. -/
abbrev ObsKey := String × String × String × String

/-- `links_map` key equality: Python tuple equality on `(Port, Port)`
under `Port.__eq__` (which ignores `mac`). -/
def linkKeyEq (a b : Port × Port) : Bool :=
  portKeyEq a.1 b.1 && portKeyEq a.2 b.2

/-- Accumulator of phase 2: `links_map` in insertion order plus the
observation set `self._observed_links`. -/
structure LinksAcc where
  links : List Link
  observed : List ObsKey

/-- `links_map[link_key]` create-or-update: if no link is stored under
the (Port-equality) key, append a fresh link with the one discovery
method; otherwise add the method to the stored link if it is new. -/
def updateLinksMap (key : Port × Port) (method : String) : List Link → List Link
  | [] => [{ port_a := key.1, port_b := key.2, bidirectional := false,
             discovery_methods := [method] }]
  | l :: rest =>
    if linkKeyEq (portsOf l) key then
      (if method ∈ l.discovery_methods then l
       else { l with discovery_methods := l.discovery_methods ++ [method] }) :: rest
    else l :: updateLinksMap key method rest

/-- `self._observed_links.add(obs_key)`: set insertion. -/
def insertObs (k : ObsKey) (s : List ObsKey) : List ObsKey :=
  if k ∈ s then s else s ++ [k]

/-- Body of the innermost phase-2 loop (`for neighbor in neighbor_list`):
skip empty remote MACs, MACs absent from the index, and self-references;
otherwise create/update the link and record the directional observation. -/
def processNeighbor (macToPort : List (String × Port)) (host_id iface : String)
    (localPort : Port) (acc : LinksAcc) (n : Neighbor) : LinksAcc :=
  if n.remote_mac = "" then acc
  else
    match lookupAssoc macToPort n.remote_mac with
    | none => acc
    | some remotePort =>
      if remotePort.host = host_id then acc
      else
        { links := updateLinksMap (normalizeLinkKey localPort remotePort)
            n.discovery_method acc.links
          observed := insertObs (host_id, iface, remotePort.host, remotePort.interface)
            acc.observed }

/-- Body of the `for iface, neighbor_list in neighbors.items()` loop:
interfaces with no inventory record are skipped. -/
def processInterface (macToPort : List (String × Port)) (host_id : String)
    (interfaces : List (String × InterfaceData)) (acc : LinksAcc)
    (e : String × List Neighbor) : LinksAcc :=
  match lookupAssoc interfaces e.1 with
  | none => acc
  | some _ =>
    let localPort : Port :=
      { host := host_id, interface := e.1, mac := getInterfaceMac interfaces e.1 }
    e.2.foldl (processNeighbor macToPort host_id e.1 localPort) acc

/-- Body of the phase-2 `for host_id, data in host_data.items()` loop. -/
def processHostLinks (macToPort : List (String × Port)) (acc : LinksAcc)
    (e : String × HostData) : LinksAcc :=
  e.2.neighbors.foldl (processInterface macToPort e.1 e.2.interfaces) acc

/-- Phase 3 (`for link in links_map.values()`): set `bidirectional` iff
both the forward and the reverse directional tuple were observed. -/
def setBidirectional (observed : List ObsKey) (l : Link) : Link :=
  { l with bidirectional :=
      decide ((l.port_a.host, l.port_a.interface, l.port_b.host, l.port_b.interface)
          ∈ observed)
      && decide ((l.port_b.host, l.port_b.interface, l.port_a.host, l.port_a.interface)
          ∈ observed) }

/-- The engine-instance fields of `TopologyInferrer`
(`self._mac_to_port`, `self._observed_links`). -/
structure InferState where
  mac_to_port : List (String × Port)
  observed_links : List ObsKey

/-- The phase-2 accumulator produced by one run over `host_data`. -/
def inferAcc (host_data : RawData) : LinksAcc :=
  host_data.foldl (processHostLinks (phase1 host_data).2) { links := [], observed := [] }

/-- `TopologyInferrer.infer`.  Takes the engine state before the call and
returns the inferred topology together with the state after the call.
The first thing `infer` does is `self._mac_to_port.clear()` /
`self._observed_links.clear()`, so the incoming state is discarded. -/
def infer (_s : InferState) (host_data : RawData) : Topology × InferState :=
  ({ hosts := (phase1 host_data).1,
     links := (inferAcc host_data).links.map (setBidirectional (inferAcc host_data).observed) },
   { mac_to_port := (phase1 host_data).2, observed_links := (inferAcc host_data).observed })

/-! ## TopologyValidator (`engine/validate.py`) -/

/-- A structured detail value inside `ValidationIssue.details`. -/
inductive DVal where
  | s (v : String)
  | i (v : Int)
  | strs (v : List String)
deriving DecidableEq, Repr

/-- `engine/validate.py` `ValidationIssue`.  `details` is an optional
dict, modelled in insertion order. -/
structure ValidationIssue where
  severity : String
  host : String
  interface : String
  message : String
  details : Option (List (String × DVal))
deriving DecidableEq, Repr

/-- Validator thresholds (`error_threshold`, `dropped_threshold`;
defaults 100 and 1000). -/
structure Validator where
  error_threshold : Int
  dropped_threshold : Int
deriving DecidableEq, Repr

/-- `TopologyValidator._check_unidirectional_links`. -/
def checkUnidirectionalLinks (topology : Topology) : List ValidationIssue :=
  topology.links.foldl
    (fun issues link =>
      if link.bidirectional then issues
      else issues ++
        [{ severity := "warning"
           host := link.port_a.host
           interface := link.port_a.interface
           message := "Unidirectional link to " ++ link.port_b.host ++ ":"
             ++ link.port_b.interface ++ " - only one side observes the connection"
           details := some
             [("remote_host", DVal.s link.port_b.host),
              ("remote_interface", DVal.s link.port_b.interface),
              ("discovery_methods", DVal.strs link.discovery_methods)] }])
    []

/-- `TopologyValidator._get_link_state`.  (In Python a host record or a
link-state record that is an empty dict is additionally skipped for being
falsy; for those records every field read below returns its default, so
no issue is produced either way.) -/
def getLinkState (raw : RawData) (host interface : String) : Option LinkState :=
  match lookupAssoc raw host with
  | none => none
  | some host_data => lookupAssoc host_data.link_states interface

/-- `TopologyValidator._check_link_mismatches`: per link, a speed issue
then a duplex issue, each only when both endpoints report a non-empty,
differing value. -/
def checkLinkMismatches (topology : Topology) (raw : RawData) : List ValidationIssue :=
  topology.links.foldl
    (fun issues link =>
      match getLinkState raw link.port_a.host link.port_a.interface,
            getLinkState raw link.port_b.host link.port_b.interface with
      | some stateA, some stateB =>
        let speedIssues :=
          if stateA.speed ≠ "" ∧ stateB.speed ≠ "" ∧ stateA.speed ≠ stateB.speed then
            [{ severity := "warning"
               host := link.port_a.host
               interface := link.port_a.interface
               message := "Speed mismatch with " ++ link.port_b.host ++ ":"
                 ++ link.port_b.interface ++ ": " ++ stateA.speed ++ " vs " ++ stateB.speed
               details := some
                 [("local_speed", DVal.s stateA.speed),
                  ("remote_speed", DVal.s stateB.speed),
                  ("remote_host", DVal.s link.port_b.host),
                  ("remote_interface", DVal.s link.port_b.interface)] }]
          else []
        let duplexIssues :=
          if stateA.duplex ≠ "" ∧ stateB.duplex ≠ "" ∧ stateA.duplex ≠ stateB.duplex then
            [{ severity := "warning"
               host := link.port_a.host
               interface := link.port_a.interface
               message := "Duplex mismatch with " ++ link.port_b.host ++ ":"
                 ++ link.port_b.interface ++ ": " ++ stateA.duplex ++ " vs " ++ stateB.duplex
               details := some
                 [("local_duplex", DVal.s stateA.duplex),
                  ("remote_duplex", DVal.s stateB.duplex),
                  ("remote_host", DVal.s link.port_b.host),
                  ("remote_interface", DVal.s link.port_b.interface)] }]
          else []
        issues ++ speedIssues ++ duplexIssues
      | _, _ => issues)
    []

/-- `TopologyValidator._check_no_link_detected`. -/
def checkNoLinkDetected (topology : Topology) (raw : RawData) : List ValidationIssue :=
  raw.foldl
    (fun issues he =>
      he.2.interfaces.foldl
        (fun issues ie =>
          if ie.2.state ≠ "up" then issues
          else
            let ls := (lookupAssoc he.2.link_states ie.1).getD emptyLinkState
            if ¬ ls.link_detected ∧ ¬ ls.carrier then
              if topology.get_link_for_interface he.1 ie.1 = none then
                issues ++
                  [{ severity := "info"
                     host := he.1
                     interface := ie.1
                     message := "Interface is up but no link detected and no neighbors found"
                     details := none }]
              else issues
            else issues)
        issues)
    []

/-- `TopologyValidator._check_error_counters`: per link-state record with
a (non-empty) stats dict, four independent threshold checks in order. -/
def checkErrorCounters (v : Validator) (raw : RawData) : List ValidationIssue :=
  raw.foldl
    (fun issues he =>
      he.2.link_states.foldl
        (fun issues le =>
          match le.2.stats with
          | none => issues
          | some stats =>
            let rxe :=
              if stats.rx_errors > v.error_threshold then
                [{ severity := "warning", host := he.1, interface := le.1
                   message := "High RX error count: " ++ toString stats.rx_errors
                   details := some [("rx_errors", DVal.i stats.rx_errors),
                                    ("threshold", DVal.i v.error_threshold)] }]
              else []
            let txe :=
              if stats.tx_errors > v.error_threshold then
                [{ severity := "warning", host := he.1, interface := le.1
                   message := "High TX error count: " ++ toString stats.tx_errors
                   details := some [("tx_errors", DVal.i stats.tx_errors),
                                    ("threshold", DVal.i v.error_threshold)] }]
              else []
            let rxd :=
              if stats.rx_dropped > v.dropped_threshold then
                [{ severity := "info", host := he.1, interface := le.1
                   message := "High RX dropped count: " ++ toString stats.rx_dropped
                   details := some [("rx_dropped", DVal.i stats.rx_dropped),
                                    ("threshold", DVal.i v.dropped_threshold)] }]
              else []
            let txd :=
              if stats.tx_dropped > v.dropped_threshold then
                [{ severity := "info", host := he.1, interface := le.1
                   message := "High TX dropped count: " ++ toString stats.tx_dropped
                   details := some [("tx_dropped", DVal.i stats.tx_dropped),
                                    ("threshold", DVal.i v.dropped_threshold)] }]
              else []
            issues ++ rxe ++ txe ++ rxd ++ txd)
        issues)
    []

/-- `severity_order.get(x.severity, 3)`. -/
def severityRank (s : String) : Nat :=
  if s = "error" then 0 else if s = "warning" then 1 else if s = "info" then 2 else 3

/-- The Python sort key `(severity_order.get(severity, 3), host, interface)`. -/
def issueKey (x : ValidationIssue) : Nat × String × String :=
  (severityRank x.severity, x.host, x.interface)

/-- Python tuple `<=` on sort keys: lexicographic. -/
def keyLe (a b : Nat × String × String) : Bool :=
  decide (a.1 < b.1) || (decide (a.1 = b.1) &&
    (strLtB a.2.1 b.2.1 || (a.2.1 == b.2.1 && strLeB a.2.2 b.2.2)))

/-- Comparison used by the final `issues.sort(key=...)`. -/
def issueLe (x y : ValidationIssue) : Bool := keyLe (issueKey x) (issueKey y)

/-- The issue list before sorting: the four rules contribute in the fixed
declaration order (unidirectional, speed/duplex mismatch, no-link,
error counters). -/
def ruleIssues (v : Validator) (topology : Topology) (raw : RawData) : List ValidationIssue :=
  checkUnidirectionalLinks topology
    ++ checkLinkMismatches topology raw
    ++ checkNoLinkDetected topology raw
    ++ checkErrorCounters v raw

/-- `TopologyValidator.validate`: run the four rules, then stably sort by
`(severity_rank, host, interface)` (Python `list.sort` is stable;
`List.mergeSort` is the same stable sort). -/
def validate (v : Validator) (topology : Topology) (raw : RawData) : List ValidationIssue :=
  (ruleIssues v topology raw).mergeSort issueLe

/-! ## Order properties of the Python string/tuple comparisons -/

theorem charListLt_irrefl (xs : List Char) : charListLt xs xs = false := by
  induction xs with
  | nil => rfl
  | cons a as ih => simp [charListLt, ih]

theorem charListLt_asymm : ∀ {xs ys : List Char},
    charListLt xs ys = true → charListLt ys xs = true → False
  | [], [], h, _ => by simp [charListLt] at h
  | [], _ :: _, _, h' => by simp [charListLt] at h'
  | _ :: _, [], h, _ => by simp [charListLt] at h
  | a :: as, b :: bs, h, h' => by
    simp only [charListLt, Bool.or_eq_true, Bool.and_eq_true, decide_eq_true_eq] at h h'
    rcases h with h | ⟨hab, h⟩
    · rcases h' with h' | ⟨hba, _⟩
      · omega
      · omega
    · rcases h' with h' | ⟨_, h'⟩
      · omega
      · exact charListLt_asymm h h'

theorem charListLt_trichotomy : ∀ (xs ys : List Char),
    charListLt xs ys = true ∨ xs = ys ∨ charListLt ys xs = true
  | [], [] => Or.inr (Or.inl rfl)
  | [], _ :: _ => Or.inl rfl
  | _ :: _, [] => Or.inr (Or.inr rfl)
  | a :: as, b :: bs => by
    rcases Nat.lt_trichotomy a.toNat b.toNat with h | h | h
    · exact Or.inl (by simp [charListLt, h])
    · have hab : a = b := Char.ext (UInt32.ext h)
      subst hab
      rcases charListLt_trichotomy as bs with h' | h' | h'
      · exact Or.inl (by simp [charListLt, h'])
      · exact Or.inr (Or.inl (by rw [h']))
      · exact Or.inr (Or.inr (by simp [charListLt, h']))
    · exact Or.inr (Or.inr (by simp [charListLt, h]))

theorem charListLt_trans : ∀ {xs ys zs : List Char},
    charListLt xs ys = true → charListLt ys zs = true → charListLt xs zs = true
  | [], [], _, h, _ => by simp [charListLt] at h
  | _ :: _, [], _, h, _ => by simp [charListLt] at h
  | [], _ :: _, [], _, h' => by simp [charListLt] at h'
  | [], _ :: _, _ :: _, _, _ => rfl
  | _ :: _, _ :: _, [], _, h' => by simp [charListLt] at h'
  | a :: as, b :: bs, c :: cs, h, h' => by
    simp only [charListLt, Bool.or_eq_true, Bool.and_eq_true, decide_eq_true_eq] at h h' ⊢
    rcases h with h | ⟨hab, h⟩ <;> rcases h' with h' | ⟨hbc, h'⟩
    · exact Or.inl (by omega)
    · exact Or.inl (by omega)
    · exact Or.inl (by omega)
    · exact Or.inr ⟨by omega, charListLt_trans h h'⟩

theorem strLtB_irrefl (a : String) : strLtB a a = false := charListLt_irrefl a.data

theorem strLtB_asymm {a b : String} (h : strLtB a b = true) (h' : strLtB b a = true) :
    False := charListLt_asymm h h'

theorem strLtB_trans {a b c : String} (h : strLtB a b = true) (h' : strLtB b c = true) :
    strLtB a c = true := charListLt_trans h h'

theorem strLtB_trichotomy (a b : String) :
    strLtB a b = true ∨ a = b ∨ strLtB b a = true := by
  rcases charListLt_trichotomy a.data b.data with h | h | h
  · exact Or.inl h
  · exact Or.inr (Or.inl (by cases a; cases b; simpa using congrArg String.mk h))
  · exact Or.inr (Or.inr h)

theorem strLeB_refl (a : String) : strLeB a a = true := by simp [strLeB]

theorem strLeB_total (a b : String) : strLeB a b = true ∨ strLeB b a = true := by
  rcases strLtB_trichotomy a b with h | h | h
  · exact Or.inl (by simp [strLeB, h])
  · exact Or.inl (by simp [strLeB, h])
  · exact Or.inr (by simp [strLeB, h])

theorem strLeB_antisymm {a b : String} (h : strLeB a b = true) (h' : strLeB b a = true) :
    a = b := by
  simp only [strLeB, Bool.or_eq_true, beq_iff_eq] at h h'
  rcases h with h | h
  · rcases h' with h' | h'
    · exact absurd h' (by intro hc; exact strLtB_asymm h hc)
    · exact h'.symm
  · exact h

theorem strLeB_trans {a b c : String} (h : strLeB a b = true) (h' : strLeB b c = true) :
    strLeB a c = true := by
  simp only [strLeB, Bool.or_eq_true, beq_iff_eq] at h h' ⊢
  rcases h with h | h
  · rcases h' with h' | h'
    · exact Or.inl (strLtB_trans h h')
    · exact Or.inl (h' ▸ h)
  · exact h ▸ h'

theorem pairLe_total (a b : String × String) : pairLe a b = true ∨ pairLe b a = true := by
  rcases strLtB_trichotomy a.1 b.1 with h | h | h
  · exact Or.inl (by simp [pairLe, h])
  · rcases strLeB_total a.2 b.2 with h2 | h2
    · exact Or.inl (by simp [pairLe, h, h2])
    · exact Or.inr (by simp [pairLe, h, h2])
  · exact Or.inr (by simp [pairLe, h])

theorem pairLe_antisymm {a b : String × String} (h : pairLe a b = true)
    (h' : pairLe b a = true) : a = b := by
  simp only [pairLe, Bool.or_eq_true, Bool.and_eq_true, beq_iff_eq] at h h'
  rcases h with h | ⟨h1, h2⟩
  · rcases h' with h' | ⟨h1', _⟩
    · exact absurd h' (by intro hc; exact strLtB_asymm h hc)
    · exact absurd h (by rw [h1']; simp [strLtB_irrefl])
  · rcases h' with h' | ⟨_, h2'⟩
    · exact absurd h' (by rw [h1]; simp [strLtB_irrefl])
    · exact Prod.ext h1 (strLeB_antisymm h2 h2')

/-! ## Link-key lemmas -/

theorem portKeyEq_iff {p q : Port} : portKeyEq p q = true ↔ portKey p = portKey q := by
  simp [portKeyEq, portKey, Prod.ext_iff]

theorem portKeyEq_refl (p : Port) : portKeyEq p p = true := by simp [portKeyEq]

/-- Whether two (ordered) port pairs name the same unordered port pair,
under Python `Port` equality. -/
def sameUnorderedPair (a b : Port × Port) : Bool :=
  (portKeyEq a.1 b.1 && portKeyEq a.2 b.2) || (portKeyEq a.1 b.2 && portKeyEq a.2 b.1)

theorem linkKeyEq_refl (a : Port × Port) : linkKeyEq a a = true := by
  simp [linkKeyEq, portKeyEq_refl]

theorem normalizeLinkKey_normalized (p q : Port) :
    pairLe (portKey (normalizeLinkKey p q).1) (portKey (normalizeLinkKey p q).2) = true := by
  unfold normalizeLinkKey
  by_cases h : pairLe (portKey p) (portKey q) = true
  · simp [h]
  · rcases pairLe_total (portKey p) (portKey q) with h' | h'
    · exact absurd h' h
    · simp [Bool.not_eq_true] at h
      simp [h, h']

theorem normalizeLinkKey_cases (p q : Port) :
    normalizeLinkKey p q = (p, q) ∨ normalizeLinkKey p q = (q, p) := by
  unfold normalizeLinkKey
  by_cases h : pairLe (portKey p) (portKey q) = true
  · simp [h]
  · simp [Bool.not_eq_true] at h
    simp [h]

theorem normalizeLinkKey_symm (p q : Port) :
    linkKeyEq (normalizeLinkKey p q) (normalizeLinkKey q p) = true := by
  by_cases h1 : pairLe (portKey p) (portKey q) = true
  · by_cases h2 : pairLe (portKey q) (portKey p) = true
    · have hk : portKey p = portKey q := pairLe_antisymm h1 h2
      rcases normalizeLinkKey_cases p q with h | h <;>
        rcases normalizeLinkKey_cases q p with h' | h' <;>
          rw [h, h'] <;> simp [linkKeyEq, portKeyEq_iff, hk]
    · unfold normalizeLinkKey
      simp only [Bool.not_eq_true] at h2
      simp [h1, h2, linkKeyEq_refl]
  · have h2 : pairLe (portKey q) (portKey p) = true := by
      rcases pairLe_total (portKey p) (portKey q) with h | h
      · exact absurd h h1
      · exact h
    unfold normalizeLinkKey
    simp only [Bool.not_eq_true] at h1
    simp [h1, h2, linkKeyEq_refl]

/-- Two normalized pairs naming the same unordered pair are equal as keys. -/
theorem sameUnordered_of_normalized {a b : Port × Port}
    (ha : pairLe (portKey a.1) (portKey a.2) = true)
    (hb : pairLe (portKey b.1) (portKey b.2) = true)
    (h : sameUnorderedPair a b = true) : linkKeyEq a b = true := by
  simp only [sameUnorderedPair, Bool.or_eq_true, Bool.and_eq_true] at h
  rcases h with ⟨h1, h2⟩ | ⟨h1, h2⟩
  · simp [linkKeyEq, h1, h2]
  · have k1 : portKey a.1 = portKey b.2 := portKeyEq_iff.mp h1
    have k2 : portKey a.2 = portKey b.1 := portKeyEq_iff.mp h2
    have hbb : portKey b.1 = portKey b.2 := by
      apply pairLe_antisymm hb
      rw [← k1, ← k2]; exact ha
    have e1 : portKeyEq a.1 b.1 = true := portKeyEq_iff.mpr (by rw [k1, hbb])
    have e2 : portKeyEq a.2 b.2 = true := portKeyEq_iff.mpr (by rw [k2, hbb])
    simp [linkKeyEq, e1, e2]

/-! ## Fold invariants -/

theorem foldl_inv {σ β : Type} (P : σ → Prop) (step : σ → β → σ) :
    ∀ (l : List β) (s : σ), P s → (∀ s' b, b ∈ l → P s' → P (step s' b)) →
      P (l.foldl step s)
  | [], s, hs, _ => hs
  | b :: l, s, hs, hstep => by
    simp only [List.foldl_cons]
    exact foldl_inv P step l (step s b) (hstep s b (List.mem_cons_self b l) hs)
      (fun s' b' hb' => hstep s' b' (List.mem_cons_of_mem b hb'))

theorem lookupAssoc_mem {β : Type} : ∀ {m : List (String × β)} {k : String} {v : β},
    lookupAssoc m k = some v → (k, v) ∈ m
  | [], _, _, h => by simp [lookupAssoc] at h
  | (k', v') :: rest, k, v, h => by
    simp only [lookupAssoc] at h
    by_cases hk : k' = k
    · subst hk
      simp at h
      subst h
      exact List.mem_cons_self _ _
    · simp [hk] at h
      exact List.mem_cons_of_mem _ (lookupAssoc_mem h)

/-- `updateLinksMap` either leaves the stored port pairs unchanged (key
already present) or appends the key as a new pair. -/
theorem updateLinksMap_ports (key : Port × Port) (method : String) :
    ∀ ls : List Link,
      (updateLinksMap key method ls).map portsOf =
        if ls.any (fun l => linkKeyEq (portsOf l) key) then ls.map portsOf
        else ls.map portsOf ++ [key]
  | [] => by simp [updateLinksMap, portsOf]
  | l :: rest => by
    simp only [updateLinksMap, List.any_cons]
    by_cases h : linkKeyEq (portsOf l) key = true
    · simp only [h, Bool.true_or, if_true]
      by_cases hm : method ∈ l.discovery_methods
      · simp [hm]
      · simp [hm, portsOf]
    · simp only [Bool.not_eq_true] at h
      simp only [h, Bool.false_eq_true, if_false, Bool.false_or, List.map_cons]
      rw [updateLinksMap_ports key method rest]
      by_cases h' : rest.any (fun l => linkKeyEq (portsOf l) key) = true
      · simp [h']
      · simp only [Bool.not_eq_true] at h'
        simp [h']

theorem portsOf_setBidirectional (observed : List ObsKey) (l : Link) :
    portsOf (setBidirectional observed l) = portsOf l := rfl

/-! ## The run invariant on link port pairs -/

/-- Invariant on the pairs of ports stored in `links_map`: pairwise
distinct as unordered pairs, each pair canonically ordered, with distinct
endpoint hosts both drawn from the input's host ids. -/
def GoodPairs (keys : List String) (ps : List (Port × Port)) : Prop :=
  ps.Pairwise (fun a b => sameUnorderedPair a b = false) ∧
  ∀ pr ∈ ps, pairLe (portKey pr.1) (portKey pr.2) = true ∧
    pr.1.host ≠ pr.2.host ∧ pr.1.host ∈ keys ∧ pr.2.host ∈ keys

theorem processNeighbor_good {keys : List String} {macToPort : List (String × Port)}
    (hmac : ∀ kv ∈ macToPort, kv.2.host ∈ keys)
    {host_id : String} (iface : String) (localPort : Port)
    (hlocal : localPort.host = host_id) (hhost : host_id ∈ keys)
    {acc : LinksAcc} (hacc : GoodPairs keys (acc.links.map portsOf))
    (n : Neighbor) :
    GoodPairs keys
      ((processNeighbor macToPort host_id iface localPort acc n).links.map portsOf) := by
  unfold processNeighbor
  by_cases h0 : n.remote_mac = ""
  · simpa [h0] using hacc
  · cases hl : lookupAssoc macToPort n.remote_mac with
    | none => simpa [h0, hl] using hacc
    | some remotePort =>
      by_cases hself : remotePort.host = host_id
      · simpa [h0, hl, hself] using hacc
      · simp only [if_neg h0, hl, if_neg hself]
        have hrp : remotePort.host ∈ keys := hmac _ (lookupAssoc_mem hl)
        have hnorm : pairLe (portKey (normalizeLinkKey localPort remotePort).1)
            (portKey (normalizeLinkKey localPort remotePort).2) = true :=
          normalizeLinkKey_normalized _ _
        have hosts : (normalizeLinkKey localPort remotePort).1.host
              ≠ (normalizeLinkKey localPort remotePort).2.host
            ∧ (normalizeLinkKey localPort remotePort).1.host ∈ keys
            ∧ (normalizeLinkKey localPort remotePort).2.host ∈ keys := by
          have hne : localPort.host ≠ remotePort.host := by
            rw [hlocal]; exact fun e => hself e.symm
          rcases normalizeLinkKey_cases localPort remotePort with h | h <;> rw [h]
          · exact ⟨hne, hlocal ▸ hhost, hrp⟩
          · exact ⟨fun e => hne e.symm, hrp, hlocal ▸ hhost⟩
        show GoodPairs keys
          ((updateLinksMap (normalizeLinkKey localPort remotePort)
            n.discovery_method acc.links).map portsOf)
        rw [updateLinksMap_ports]
        by_cases hfound :
            acc.links.any (fun l => linkKeyEq (portsOf l) (normalizeLinkKey localPort remotePort))
              = true
        · simpa [hfound] using hacc
        · simp only [hfound, Bool.false_eq_true, if_false]
          constructor
          · rw [List.pairwise_append]
            refine ⟨hacc.1, List.pairwise_singleton _ _, ?_⟩
            intro a ha b hb
            rw [List.mem_singleton] at hb
            subst hb
            by_contra hcon
            rw [Bool.not_eq_false] at hcon
            have hkey : linkKeyEq a (normalizeLinkKey localPort remotePort) = true :=
              sameUnordered_of_normalized (hacc.2 a ha).1 hnorm hcon
            obtain ⟨l, hlmem, rfl⟩ := List.mem_map.mp ha
            exact hfound (List.any_eq_true.mpr ⟨l, hlmem, hkey⟩)
          · intro pr hpr
            rcases List.mem_append.mp hpr with h | h
            · exact hacc.2 pr h
            · rw [List.mem_singleton] at h
              subst h
              exact ⟨hnorm, hosts.1, hosts.2.1, hosts.2.2⟩

theorem processInterface_good {keys : List String} {macToPort : List (String × Port)}
    (hmac : ∀ kv ∈ macToPort, kv.2.host ∈ keys)
    {host_id : String} (hhost : host_id ∈ keys)
    (interfaces : List (String × InterfaceData))
    {acc : LinksAcc} (hacc : GoodPairs keys (acc.links.map portsOf))
    (e : String × List Neighbor) :
    GoodPairs keys
      ((processInterface macToPort host_id interfaces acc e).links.map portsOf) := by
  unfold processInterface
  cases lookupAssoc interfaces e.1 with
  | none => exact hacc
  | some d =>
    exact foldl_inv (fun (acc : LinksAcc) => GoodPairs keys (acc.links.map portsOf)) _
      e.2 acc hacc
      (fun acc' n _ hacc' =>
        processNeighbor_good hmac e.1
          { host := host_id, interface := e.1, mac := getInterfaceMac interfaces e.1 }
          rfl hhost hacc' n)

theorem processHostLinks_good {keys : List String} {macToPort : List (String × Port)}
    (hmac : ∀ kv ∈ macToPort, kv.2.host ∈ keys)
    {acc : LinksAcc} (hacc : GoodPairs keys (acc.links.map portsOf))
    {e : String × HostData} (hhost : e.1 ∈ keys) :
    GoodPairs keys ((processHostLinks macToPort acc e).links.map portsOf) := by
  unfold processHostLinks
  exact foldl_inv (fun (acc : LinksAcc) => GoodPairs keys (acc.links.map portsOf)) _
    e.2.neighbors acc hacc
    (fun acc' ne _ hacc' => processInterface_good hmac hhost e.2.interfaces hacc' ne)

theorem insertMac_values (Q : Port → Prop) {k : String} {v : Port} (hv : Q v) :
    ∀ {m : List (String × Port)}, (∀ kv ∈ m, Q kv.2) →
      ∀ kv ∈ insertMac k v m, Q kv.2
  | [], _, kv, hkv => by
    simp only [insertMac, List.mem_singleton] at hkv
    subst hkv; exact hv
  | (k', v') :: rest, hm, kv, hkv => by
    simp only [insertMac] at hkv
    by_cases hk : k' = k
    · rw [if_pos hk] at hkv
      rcases List.mem_cons.mp hkv with h | h
      · subst h; exact hv
      · exact hm _ (List.mem_cons_of_mem _ h)
    · rw [if_neg hk] at hkv
      rcases List.mem_cons.mp hkv with h | h
      · subst h; exact hm _ (List.mem_cons_self _ _)
      · exact insertMac_values Q hv (fun kv' hkv' => hm _ (List.mem_cons_of_mem _ hkv')) _ h

theorem macStep_values (Q : Port → Prop) {host_id : String}
    (hnew : ∀ iface mac, Q { host := host_id, interface := iface, mac := mac })
    {m : List (String × Port)} (hm : ∀ kv ∈ m, Q kv.2) (e : String × InterfaceData) :
    ∀ kv ∈ macStep host_id m e, Q kv.2 := by
  unfold macStep
  by_cases hmac : getInterfaceMacFromData (some e.2) = ""
  · simpa [hmac] using hm
  · simp only [if_neg hmac]
    exact insertMac_values Q (hnew _ _) hm

theorem processHost_mac_values (Q : Port → Prop) {macToPort : List (String × Port)}
    (hm : ∀ kv ∈ macToPort, Q kv.2) {host_id : String}
    (hnew : ∀ iface mac, Q { host := host_id, interface := iface, mac := mac })
    (data : HostData) :
    ∀ kv ∈ (processHost macToPort host_id data).2, Q kv.2 := by
  show ∀ kv ∈ data.interfaces.foldl (macStep host_id) macToPort, Q kv.2
  exact foldl_inv (fun (m : List (String × Port)) => ∀ kv ∈ m, Q kv.2) _
    data.interfaces macToPort hm
    (fun m e _ hm' => macStep_values Q hnew hm' e)

theorem phase1_mac_hosts (hd : RawData) :
    ∀ kv ∈ (phase1 hd).2, kv.2.host ∈ hd.map Prod.fst := by
  unfold phase1
  exact foldl_inv
    (fun (acc : List (String × HostInfo) × List (String × Port)) =>
      ∀ kv ∈ acc.2, kv.2.host ∈ hd.map Prod.fst)
    _ hd ([], []) (by simp)
    (fun acc e he hacc => by
      show ∀ kv ∈ (processHost acc.2 e.1 e.2).2, kv.2.host ∈ hd.map Prod.fst
      exact processHost_mac_values (fun p => p.host ∈ hd.map Prod.fst) hacc
        (fun iface mac => List.mem_map.mpr ⟨e, he, rfl⟩) e.2)

theorem phase1_foldl_fst :
    ∀ (l : RawData) (acc : List (String × HostInfo) × List (String × Port)),
      ((l.foldl phase1Step acc).1).map Prod.fst = acc.1.map Prod.fst ++ l.map Prod.fst
  | [], acc => by simp
  | e :: l, acc => by
    rw [List.foldl_cons, phase1_foldl_fst l]
    simp [phase1Step]

theorem phase1_fst_keys (hd : RawData) :
    (phase1 hd).1.map Prod.fst = hd.map Prod.fst := by
  unfold phase1
  rw [phase1_foldl_fst]
  simp

/-- The master invariant of one inference run: the output links, viewed
as port pairs, are pairwise distinct unordered pairs, canonically
ordered, with distinct endpoint hosts drawn from the input host ids. -/
theorem infer_pairs_good (s : InferState) (hd : RawData) :
    GoodPairs (hd.map Prod.fst) (((infer s hd).1).links.map portsOf) := by
  show GoodPairs (hd.map Prod.fst)
    (((inferAcc hd).links.map (setBidirectional (inferAcc hd).observed)).map portsOf)
  rw [List.map_map,
    show portsOf ∘ setBidirectional (inferAcc hd).observed = portsOf from funext fun _ => rfl]
  unfold inferAcc
  exact foldl_inv (fun (acc : LinksAcc) => GoodPairs (hd.map Prod.fst) (acc.links.map portsOf))
    _ hd { links := [], observed := [] }
    ⟨List.Pairwise.nil, by simp⟩
    (fun acc e he hacc =>
      processHostLinks_good (phase1_mac_hosts hd) hacc (List.mem_map.mpr ⟨e, he, rfl⟩))

/-! ## Concrete run configurations used by witnesses and counterexamples -/

/-- A freshly constructed `TopologyInferrer` (empty engine state). -/
def s0 : InferState := { mac_to_port := [], observed_links := [] }

/-- Spec scenario A: `h1:eth0` and `h2:eth0` each observe the other. -/
def hdA : RawData :=
  [("h1", { hostname := none,
            interfaces := [("eth0", { mac := "aa", state := "up" })],
            link_states := [],
            neighbors := [("eth0", [{ remote_mac := "bb", discovery_method := "arp" }])] }),
   ("h2", { hostname := none,
            interfaces := [("eth0", { mac := "bb", state := "up" })],
            link_states := [],
            neighbors := [("eth0", [{ remote_mac := "aa", discovery_method := "arp" }])] })]

/-- The single link inferred from scenario A. -/
def linkA : Link :=
  { port_a := { host := "h1", interface := "eth0", mac := "aa" },
    port_b := { host := "h2", interface := "eth0", mac := "bb" },
    bidirectional := true, discovery_methods := ["arp"] }

/-! ## Claims -/

/-- C1: a Link in the output Topology is bidirectional iff both the
forward directional tuple and the reverse directional tuple were recorded
in that run's observation set; with only one present the link exists with
`bidirectional = false`. -/
theorem C1_bidirectional_iff_both_tuples_observed (s : InferState) (hd : RawData)
    (l : Link) (hmem : l ∈ ((infer s hd).1).links) :
    l.bidirectional = true ↔
      ((l.port_a.host, l.port_a.interface, l.port_b.host, l.port_b.interface)
          ∈ (infer s hd).2.observed_links
        ∧ (l.port_b.host, l.port_b.interface, l.port_a.host, l.port_a.interface)
          ∈ (infer s hd).2.observed_links) := by
  have hmem' : l ∈ (inferAcc hd).links.map (setBidirectional (inferAcc hd).observed) := hmem
  obtain ⟨l₀, h₀, rfl⟩ := List.mem_map.mp hmem'
  show (setBidirectional (inferAcc hd).observed l₀).bidirectional = true ↔ _
  simp [setBidirectional, infer]

theorem C1_witness :
    linkA.bidirectional = true ↔
      ((linkA.port_a.host, linkA.port_a.interface, linkA.port_b.host, linkA.port_b.interface)
          ∈ (infer s0 hdA).2.observed_links
        ∧ (linkA.port_b.host, linkA.port_b.interface, linkA.port_a.host, linkA.port_a.interface)
          ∈ (infer s0 hdA).2.observed_links) :=
  C1_bidirectional_iff_both_tuples_observed s0 hdA linkA (by decide)

/-- C2: the link-key normalization is symmetric under Python `Port`
equality, and consequently no two Links in any output topology name the
same unordered port pair. -/
theorem C2_link_key_symmetric_and_links_unique :
    (∀ p q : Port, linkKeyEq (normalizeLinkKey p q) (normalizeLinkKey q p) = true)
    ∧ ∀ (s : InferState) (hd : RawData),
        ((infer s hd).1).links.Pairwise
          (fun l1 l2 => sameUnorderedPair (portsOf l1) (portsOf l2) = false) :=
  ⟨normalizeLinkKey_symm,
   fun s hd => List.pairwise_map.mp (infer_pairs_good s hd).1⟩

/-- C5: no self-links — both ports of every inferred Link belong to
different hosts. -/
theorem C5_no_self_links (s : InferState) (hd : RawData) (l : Link)
    (hmem : l ∈ ((infer s hd).1).links) : l.port_a.host ≠ l.port_b.host :=
  ((infer_pairs_good s hd).2 (portsOf l) (List.mem_map_of_mem portsOf hmem)).2.1

theorem C5_witness : linkA.port_a.host ≠ linkA.port_b.host :=
  C5_no_self_links s0 hdA linkA (by decide)

/-- C7: both ports of every inferred Link reference host ids that are
keys of the output topology's host mapping. -/
theorem C7_link_hosts_in_registry (s : InferState) (hd : RawData) (l : Link)
    (hmem : l ∈ ((infer s hd).1).links) :
    l.port_a.host ∈ ((infer s hd).1).hosts.map Prod.fst
    ∧ l.port_b.host ∈ ((infer s hd).1).hosts.map Prod.fst := by
  have h := (infer_pairs_good s hd).2 (portsOf l) (List.mem_map_of_mem portsOf hmem)
  have hk : ((infer s hd).1).hosts.map Prod.fst = hd.map Prod.fst := phase1_fst_keys hd
  rw [hk]
  exact ⟨h.2.2.1, h.2.2.2⟩

theorem C7_witness :
    linkA.port_a.host ∈ ((infer s0 hdA).1).hosts.map Prod.fst
    ∧ linkA.port_b.host ∈ ((infer s0 hdA).1).hosts.map Prod.fst :=
  C7_link_hosts_in_registry s0 hdA linkA (by decide)

/-- C10: `infer` ignores the engine state it starts from (the per-run
maps are rebuilt fresh), so rerunning on the same input — in particular
with the state left behind by the first run — yields the identical
Topology. -/
theorem C10_rerun_identical (s : InferState) (hd : RawData) :
    (infer (infer s hd).2 hd).1 = (infer s hd).1
    ∧ ∀ s' : InferState, infer s' hd = infer s hd :=
  ⟨rfl, fun _ => rfl⟩

/-! ## C3: one interface can appear in several links -/

/-- `h1:eth0` observes two distinct remote MACs, owned by `h2` and `h3`. -/
def hd3 : RawData :=
  [("h1", { hostname := none,
            interfaces := [("eth0", { mac := "", state := "up" })],
            link_states := [],
            neighbors := [("eth0", [{ remote_mac := "aa", discovery_method := "arp" },
                                    { remote_mac := "bb", discovery_method := "arp" }])] }),
   ("h2", { hostname := none, interfaces := [("eth0", { mac := "aa", state := "up" })],
            link_states := [], neighbors := [] }),
   ("h3", { hostname := none, interfaces := [("eth0", { mac := "bb", state := "up" })],
            link_states := [], neighbors := [] })]

/-- The first of the two links involving `h1:eth0` in `hd3`'s topology. -/
def link3 : Link :=
  { port_a := { host := "h1", interface := "eth0", mac := "" },
    port_b := { host := "h2", interface := "eth0", mac := "aa" },
    bidirectional := false, discovery_methods := ["arp"] }

theorem findLinkForPort_none_iff (h i : String) :
    ∀ ls : List Link,
      (findLinkForPort h i ls = none ↔ ∀ l ∈ ls, l.involves_port h i = false)
  | [] => by simp [findLinkForPort]
  | l :: rest => by
    simp only [findLinkForPort]
    by_cases hl : l.involves_port h i = true
    · simp [hl]
    · rw [Bool.not_eq_true] at hl
      simp [hl, findLinkForPort_none_iff h i rest]

theorem findLinkForPort_some (h i : String) :
    ∀ {ls : List Link} {l : Link}, findLinkForPort h i ls = some l →
      l.involves_port h i = true
      ∧ ∃ pre post, ls = pre ++ l :: post ∧ ∀ l' ∈ pre, l'.involves_port h i = false
  | [], l, hl => by simp [findLinkForPort] at hl
  | x :: rest, l, hl => by
    simp only [findLinkForPort] at hl
    by_cases hx : x.involves_port h i = true
    · rw [if_pos hx] at hl
      obtain rfl : x = l := Option.some.inj hl
      exact ⟨hx, [], rest, rfl, by simp⟩
    · rw [if_neg hx] at hl
      rw [Bool.not_eq_true] at hx
      obtain ⟨hli, pre, post, heq, hpre⟩ := findLinkForPort_some h i hl
      refine ⟨hli, x :: pre, post, by rw [heq, List.cons_append], ?_⟩
      intro l' hl'
      rcases List.mem_cons.mp hl' with h' | h'
      · subst h'; exact hx
      · exact hpre _ h'

/-- C3 counterexample: in `hd3`'s topology two Links involve the port
`(h1, eth0)`, so "at most one Link involves any given port" fails;
`get_link_for_interface` returns the first of them, not a unique one. -/
theorem C3_counterexample :
    ((infer s0 hd3).1.links.filter fun l => l.involves_port "h1" "eth0").length = 2
    ∧ (infer s0 hd3).1.get_link_for_interface "h1" "eth0" = some link3 := by
  constructor
  · decide
  · decide

/-- C3 as amended: `get_link_for_interface` returns `none` iff no Link
involves the port, and otherwise returns the first Link in list order
that involves it (several Links may involve one port when an interface
has multiple resolving neighbor observations). -/
theorem C3_first_link_for_interface (t : Topology) (h i : String) :
    (t.get_link_for_interface h i = none ↔ ∀ l ∈ t.links, l.involves_port h i = false)
    ∧ (∀ l : Link, t.get_link_for_interface h i = some l →
        l.involves_port h i = true
        ∧ ∃ pre post, t.links = pre ++ l :: post
            ∧ ∀ l' ∈ pre, l'.involves_port h i = false) :=
  ⟨findLinkForPort_none_iff h i t.links, fun _ hl => findLinkForPort_some h i hl⟩

theorem C3_witness :
    link3.involves_port "h1" "eth0" = true
    ∧ ∃ pre post, (infer s0 hd3).1.links = pre ++ link3 :: post
        ∧ ∀ l' ∈ pre, l'.involves_port "h1" "eth0" = false :=
  (C3_first_link_for_interface (infer s0 hd3).1 "h1" "eth0").2 link3 (by decide)

/-! ## C4: address matching and letter case -/

/-- `h2:eth0`'s inventory address is `"aa"`; `h1:eth0` reports the
case-variant `"AA"` of that address as its neighbor's remote address. -/
def hd4 : RawData :=
  [("h1", { hostname := none,
            interfaces := [("eth0", { mac := "", state := "up" })],
            link_states := [],
            neighbors := [("eth0", [{ remote_mac := "AA", discovery_method := "arp" }])] }),
   ("h2", { hostname := none, interfaces := [("eth0", { mac := "aa", state := "up" })],
            link_states := [], neighbors := [] })]

/-- C4 counterexample: the observed remote address `"AA"` differs from
`h2:eth0`'s inventory address `"aa"` only in letter case, the Address
Index does own the (lowercased) address `"aa"`, and yet no Link is
produced: the lookup of `"AA"` is done without case normalization. -/
theorem C4_counterexample :
    ("AA" ≠ "aa" ∧ lowerStr "AA" = lowerStr "aa")
    ∧ lookupAssoc (infer s0 hd4).2.mac_to_port "aa" =
        some { host := "h2", interface := "eth0", mac := "aa" }
    ∧ (infer s0 hd4).1.links = [] := by
  refine ⟨⟨?_, ?_⟩, ?_, ?_⟩
  · decide
  · decide
  · decide
  · decide

/-- Family of inputs for the amended claim: `h2:eth0`'s inventory address
is `m` (arbitrary case) and `h1:eth0` observes exactly `lowerStr m`. -/
def hd4A (m : String) : RawData :=
  [("h1", { hostname := none,
            interfaces := [("eth0", { mac := "", state := "up" })],
            link_states := [],
            neighbors := [("eth0", [{ remote_mac := lowerStr m, discovery_method := "arp" }])] }),
   ("h2", { hostname := none, interfaces := [("eth0", { mac := m, state := "up" })],
            link_states := [], neighbors := [] })]

/-- C4 as amended: the Address Index is keyed by the lowercased inventory
addresses, so an observation equal to the lowercased form of the
inventory address resolves and yields the Link regardless of the
inventory's letter case; only the observation side is matched verbatim. -/
theorem C4_lowercased_inventory_resolves (m : String) (hm : lowerStr m ≠ "") :
    (infer s0 (hd4A m)).1.links =
      [{ port_a := { host := "h1", interface := "eth0", mac := "" },
         port_b := { host := "h2", interface := "eth0", mac := lowerStr m },
         bidirectional := false, discovery_methods := ["arp"] }] := by
  have e0 : lowerStr "" = "" := rfl
  have hpl : pairLe ("h1", "eth0") ("h2", "eth0") = true := by decide
  simp [infer, inferAcc, phase1, phase1Step, processHost, macStep, getInterfaceMacFromData,
    getInterfaceMac, lookupAssoc, insertMac, processHostLinks, processInterface,
    processNeighbor, normalizeLinkKey, portKey, updateLinksMap, insertObs,
    setBidirectional, hm, e0, hpl, s0, hd4A]

theorem C4_witness :
    (infer s0 (hd4A "AA:BB")).1.links =
      [{ port_a := { host := "h1", interface := "eth0", mac := "" },
         port_b := { host := "h2", interface := "eth0", mac := lowerStr "AA:BB" },
         bidirectional := false, discovery_methods := ["arp"] }] :=
  C4_lowercased_inventory_resolves "AA:BB" (by decide)

/-! ## C6: unresolvable observations are skipped and generate no issues -/

/-- One host's data with its neighbor observations removed. -/
def stripHost (d : HostData) : HostData := { d with neighbors := [] }

/-- The same raw data with every host's neighbor observations removed. -/
def stripNeighbors (raw : RawData) : RawData :=
  raw.map fun e => (e.1, stripHost e.2)

theorem lookupAssoc_mapVal {β γ : Type} (f : β → γ) :
    ∀ (m : List (String × β)) (k : String),
      lookupAssoc (m.map fun e => (e.1, f e.2)) k = (lookupAssoc m k).map f
  | [], _ => rfl
  | (k', v) :: rest, k => by
    simp only [List.map_cons, lookupAssoc]
    by_cases h : k' = k
    · simp [h]
    · simp [h, lookupAssoc_mapVal f rest k]

theorem getLinkState_strip (raw : RawData) (h i : String) :
    getLinkState (stripNeighbors raw) h i = getLinkState raw h i := by
  unfold getLinkState stripNeighbors
  rw [lookupAssoc_mapVal stripHost]
  cases lookupAssoc raw h with
  | none => rfl
  | some d => rfl

theorem checkLinkMismatches_strip (t : Topology) (raw : RawData) :
    checkLinkMismatches t (stripNeighbors raw) = checkLinkMismatches t raw := by
  unfold checkLinkMismatches
  congr 1
  funext issues link
  rw [getLinkState_strip, getLinkState_strip]

theorem checkNoLinkDetected_strip (t : Topology) (raw : RawData) :
    checkNoLinkDetected t (stripNeighbors raw) = checkNoLinkDetected t raw := by
  unfold checkNoLinkDetected stripNeighbors
  rw [List.foldl_map]
  rfl

theorem checkErrorCounters_strip (v : Validator) (raw : RawData) :
    checkErrorCounters v (stripNeighbors raw) = checkErrorCounters v raw := by
  unfold checkErrorCounters stripNeighbors
  rw [List.foldl_map]
  rfl

/-- C6: a neighbor observation whose remote address is empty or absent
from the Address Index leaves the link accumulator unchanged (no Link),
and the validator's output never depends on the neighbor observations at
all, so such an observation also produces no ValidationIssue. -/
theorem C6_unresolvable_observation_no_link_no_issue :
    (∀ (macToPort : List (String × Port)) (host_id iface : String) (localPort : Port)
        (acc : LinksAcc) (n : Neighbor),
        (n.remote_mac = "" ∨ lookupAssoc macToPort n.remote_mac = none) →
        processNeighbor macToPort host_id iface localPort acc n = acc)
    ∧ ∀ (v : Validator) (t : Topology) (raw : RawData),
        validate v t (stripNeighbors raw) = validate v t raw := by
  constructor
  · rintro macToPort host_id iface lp acc n (h | h)
    · simp [processNeighbor, h]
    · simp [processNeighbor, h]
  · intro v t raw
    unfold validate ruleIssues
    rw [checkLinkMismatches_strip, checkNoLinkDetected_strip, checkErrorCounters_strip]

theorem C6_witness :
    processNeighbor [] "h1" "eth0" { host := "h1", interface := "eth0", mac := "" }
        { links := [], observed := [] } { remote_mac := "zz", discovery_method := "arp" }
      = { links := [], observed := [] }
    ∧ validate { error_threshold := 100, dropped_threshold := 1000 } (infer s0 hdA).1
        (stripNeighbors hdA)
      = validate { error_threshold := 100, dropped_threshold := 1000 } (infer s0 hdA).1 hdA :=
  ⟨C6_unresolvable_observation_no_link_no_issue.1 [] "h1" "eth0"
      { host := "h1", interface := "eth0", mac := "" } { links := [], observed := [] }
      { remote_mac := "zz", discovery_method := "arp" } (Or.inr rfl),
   C6_unresolvable_observation_no_link_no_issue.2
      { error_threshold := 100, dropped_threshold := 1000 } (infer s0 hdA).1 hdA⟩

/-! ## C8: the error-counter threshold boundary -/

/-- Single-host input whose only data is one link-state record with the
given error/drop counters (no interfaces, no neighbors, so no other
validation rule can trigger for the port). -/
def errInput (h i : String) (rx tx rxd txd : Int) : RawData :=
  [(h, { hostname := none, interfaces := [],
         link_states := [(i, { speed := "", duplex := "", link_detected := false,
                               carrier := false,
                               stats := some { rx_errors := rx, tx_errors := tx,
                                               rx_dropped := rxd, tx_dropped := txd } })],
         neighbors := [] })]

/-- C8: with `rx_errors = error_threshold` (and no other counter over its
threshold, no other rule applicable to the port) `validate` emits no
issue; with `rx_errors = error_threshold + 1` it emits exactly one
warning whose details carry the actual value and the threshold. -/
theorem C8_error_threshold_boundary (h i : String) (t d tx rxd txd : Int)
    (htx : tx ≤ t) (hrxd : rxd ≤ d) (htxd : txd ≤ d) :
    validate { error_threshold := t, dropped_threshold := d }
        (infer s0 (errInput h i t tx rxd txd)).1 (errInput h i t tx rxd txd) = []
    ∧ validate { error_threshold := t, dropped_threshold := d }
        (infer s0 (errInput h i (t + 1) tx rxd txd)).1 (errInput h i (t + 1) tx rxd txd) =
      [{ severity := "warning", host := h, interface := i,
         message := "High RX error count: " ++ toString (t + 1),
         details := some [("rx_errors", DVal.i (t + 1)), ("threshold", DVal.i t)] }] := by
  have h1 : ¬ (t > t) := lt_irrefl t
  have h2 : (t + 1 > t) := by omega
  have h3 : ¬ (tx > t) := not_lt.mpr htx
  have h4 : ¬ (rxd > d) := not_lt.mpr hrxd
  have h5 : ¬ (txd > d) := not_lt.mpr htxd
  constructor <;>
    simp [validate, ruleIssues, checkUnidirectionalLinks, checkLinkMismatches,
      checkNoLinkDetected, checkErrorCounters, errInput, infer, inferAcc, phase1,
      phase1Step, processHost, processHostLinks, s0, getLinkState,
      h1, h2, h3, h4, h5, List.mergeSort_nil, List.mergeSort_singleton]

/-! ## C9: ordering of the validator's issue list -/

theorem keyLe_refl (a : Nat × String × String) : keyLe a a = true := by
  simp [keyLe, strLtB_irrefl, strLeB_refl]

theorem keyLe_total (a b : Nat × String × String) : (keyLe a b || keyLe b a) = true := by
  rcases Nat.lt_trichotomy a.1 b.1 with h | h | h
  · simp [keyLe, h]
  · rcases strLtB_trichotomy a.2.1 b.2.1 with h2 | h2 | h2
    · simp [keyLe, h, h2]
    · rcases strLeB_total a.2.2 b.2.2 with h3 | h3
      · simp [keyLe, h, h2, h3]
      · simp [keyLe, h, h2, h3]
    · simp [keyLe, h, h2]
  · simp [keyLe, h]

theorem keyLe_trans {a b c : Nat × String × String}
    (h : keyLe a b = true) (h' : keyLe b c = true) : keyLe a c = true := by
  simp only [keyLe, Bool.or_eq_true, Bool.and_eq_true, decide_eq_true_eq, beq_iff_eq] at h h' ⊢
  rcases h with h | ⟨e1, h⟩
  · rcases h' with h' | ⟨e1', h'⟩
    · exact Or.inl (Nat.lt_trans h h')
    · exact Or.inl (e1' ▸ h)
  · rcases h' with h' | ⟨e1', h'⟩
    · exact Or.inl (by omega)
    · refine Or.inr ⟨e1.trans e1', ?_⟩
      rcases h with h | ⟨e2, h⟩
      · rcases h' with h' | ⟨e2', h'⟩
        · exact Or.inl (strLtB_trans h h')
        · exact Or.inl (e2' ▸ h)
      · rcases h' with h' | ⟨e2', h'⟩
        · exact Or.inl (e2.symm ▸ h')
        · exact Or.inr ⟨e2.trans e2', strLeB_trans h h'⟩

theorem issueLe_trans (a b c : ValidationIssue) (h : issueLe a b) (h' : issueLe b c) :
    issueLe a c := keyLe_trans h h'

theorem issueLe_total (a b : ValidationIssue) : issueLe a b || issueLe b a :=
  keyLe_total (issueKey a) (issueKey b)

/-- C9: `validate`'s output is sorted by `(severity_rank, host,
interface)` with ranks error=0 < warning=1 < info=2, and the sort is
stable over the fixed rule-contribution order: for every key value, the
issues with that key appear exactly as they do in the concatenated
per-rule output. -/
theorem C9_validate_sorted_and_stable (v : Validator) (t : Topology) (raw : RawData) :
    severityRank "error" = 0 ∧ severityRank "warning" = 1 ∧ severityRank "info" = 2
    ∧ (validate v t raw).Pairwise (fun x y => issueLe x y = true)
    ∧ ∀ k : Nat × String × String,
        (validate v t raw).filter (fun x => decide (issueKey x = k))
          = (ruleIssues v t raw).filter (fun x => decide (issueKey x = k)) := by
  refine ⟨rfl, rfl, rfl, ?_, ?_⟩
  · exact List.sorted_mergeSort issueLe_trans issueLe_total _
  · intro k
    have hsub : List.Sublist ((ruleIssues v t raw).filter (fun x => decide (issueKey x = k)))
        (ruleIssues v t raw) := List.filter_sublist _
    have hpw : ((ruleIssues v t raw).filter (fun x => decide (issueKey x = k))).Pairwise
        (fun x y => issueLe x y = true) := by
      apply List.pairwise_of_forall_mem_list
      intro x hx y hy
      have hkx : issueKey x = k := of_decide_eq_true (List.mem_filter.mp hx).2
      have hky : issueKey y = k := of_decide_eq_true (List.mem_filter.mp hy).2
      show keyLe (issueKey x) (issueKey y) = true
      rw [hkx, hky]
      exact keyLe_refl k
    have hstab := List.sublist_mergeSort issueLe_trans issueLe_total hpw hsub
    have hfil := hstab.filter (fun x => decide (issueKey x = k))
    rw [List.filter_filter] at hfil
    have hff : ((ruleIssues v t raw).filter
          fun a => decide (issueKey a = k) && decide (issueKey a = k))
        = (ruleIssues v t raw).filter fun a => decide (issueKey a = k) := by
      apply List.filter_congr
      intro a _
      cases decide (issueKey a = k) <;> rfl
    rw [hff] at hfil
    have hlen : ((List.mergeSort (ruleIssues v t raw) issueLe).filter
          (fun x => decide (issueKey x = k))).length
        = ((ruleIssues v t raw).filter (fun x => decide (issueKey x = k))).length :=
      ((List.mergeSort_perm (ruleIssues v t raw) issueLe).filter _).length_eq
    exact (hfil.eq_of_length hlen.symm).symm

theorem C8_witness :
    validate { error_threshold := 100, dropped_threshold := 1000 }
        (infer s0 (errInput "h1" "eth0" 100 0 0 0)).1 (errInput "h1" "eth0" 100 0 0 0) = []
    ∧ validate { error_threshold := 100, dropped_threshold := 1000 }
        (infer s0 (errInput "h1" "eth0" (100 + 1) 0 0 0)).1
        (errInput "h1" "eth0" (100 + 1) 0 0 0) =
      [{ severity := "warning", host := "h1", interface := "eth0",
         message := "High RX error count: " ++ toString ((100 : Int) + 1),
         details := some [("rx_errors", DVal.i (100 + 1)), ("threshold", DVal.i 100)] }] :=
  C8_error_threshold_boundary "h1" "eth0" 100 1000 0 0 0
    (by decide) (by decide) (by decide)

end Netconf
